import Mathlib

/-!
Verification of the shape canonicalization and cache-key derivation component
(`src/gpu/GrShape.h` / `src/gpu/GrShape.cpp`).

The component is a pure value transformer: a `GrShape` is a tagged variant
(empty / rounded rect / path) plus a style and an optional inherited key.
We embed the data model and the operations shallowly.  The geometry and style
collaborators (`SkPath`, `SkRRect`, `SkStrokeRec`, `GrStyle`'s key codec, the
path-effect and stroking services) are code of this repository that is not in
the sources at hand; they are modelled from the specification, with external
geometric services (path-effect filtering, stroking) kept opaque as an
explicit environment of functions.
-/

/-- Modelled from the spec: scalars are the fixed-width floating point values
of the geometry collaborators; only copying and comparison are performed on
them here, so they are modelled as rationals (distinct values have distinct
bit patterns). -/
abbrev SkScalar := ℚ

/-- Modelled from the spec: an axis-aligned rectangle of the geometry
collaborator (`SkRect`, not among the given sources). -/
structure SkRect where
  l : SkScalar
  t : SkScalar
  r : SkScalar
  b : SkScalar
deriving DecidableEq

/-- Modelled from the spec: `SkRect::isEmpty` — a rectangle is empty unless
left < right and top < bottom. -/
def SkRect.isEmpty (rc : SkRect) : Bool :=
  !(decide (rc.l < rc.r) && decide (rc.t < rc.b))

/-- One word of a cache key.  Key words are 32-bit in the source; we model a
word by what the source stores in it: a small integer (sentinel, generation
identifier, packed enums) or the bit pattern of a scalar. -/
inductive KeyWord where
  | nat (n : ℕ)
  | scalar (x : SkScalar)
deriving DecidableEq

/-- Modelled from the spec: a rounded rectangle (`SkRRect`, not among the
given sources) — a rectangle plus independent per-corner x/y radii. -/
structure SkRRect where
  rect : SkRect
  rx1 : SkScalar
  ry1 : SkScalar
  rx2 : SkScalar
  ry2 : SkScalar
  rx3 : SkScalar
  ry3 : SkScalar
  rx4 : SkScalar
  ry4 : SkScalar
deriving DecidableEq

/-- Modelled from the spec: a rounded rect is empty iff its bounding rect is. -/
def SkRRect.isEmpty (rr : SkRRect) : Bool := rr.rect.isEmpty

/-- Modelled from the spec: `SkRRect::setRect` / `MakeRect` — a plain
rectangle has all radii zero. -/
def SkRRect.mkRect (rc : SkRect) : SkRRect :=
  ⟨rc, 0, 0, 0, 0, 0, 0, 0, 0⟩

/-- Modelled from the spec: `SkRRect::setOval` — an oval inscribed in a
bounding rectangle has equal x/y radii = half the bounding box. -/
def SkRRect.mkOval (rc : SkRect) : SkRRect :=
  let hx := (rc.r - rc.l) / 2
  let hy := (rc.b - rc.t) / 2
  ⟨rc, hx, hy, hx, hy, hx, hy, hx, hy⟩

/-- Modelled from the spec: the byte size of the rounded-rect canonical memory
layout (`SkRRect::kSizeInMemory`): 4 rect scalars + 8 radii scalars, 4 bytes
each. -/
def SkRRect.kSizeInMemory : ℕ := 48

/-- Modelled from the spec: `SkRRect::writeToMemory` — serialize the canonical
memory layout, one key word per scalar (12 words = 48 bytes / 4). -/
def SkRRect.writeToMemory (rr : SkRRect) : List KeyWord :=
  [KeyWord.scalar rr.rect.l, KeyWord.scalar rr.rect.t,
   KeyWord.scalar rr.rect.r, KeyWord.scalar rr.rect.b,
   KeyWord.scalar rr.rx1, KeyWord.scalar rr.ry1,
   KeyWord.scalar rr.rx2, KeyWord.scalar rr.ry2,
   KeyWord.scalar rr.rx3, KeyWord.scalar rr.ry3,
   KeyWord.scalar rr.rx4, KeyWord.scalar rr.ry4]

/-- The all-zero (default-constructed, empty) rounded rect. -/
def SkRRect.zero : SkRRect := SkRRect.mkRect ⟨0, 0, 0, 0⟩

/-- Modelled from the spec: the classification of a path's contents that this
component can observe through the geometry collaborator's predicates —
emptiness, "is this actually a rrect/oval/rect (with closedness)", or general
geometry (identified only by an opaque tag). -/
inductive PathGeom where
  | empty
  | rrect (rr : SkRRect)
  | oval (rc : SkRect)
  | rect (rc : SkRect) (closed : Bool)
  | general (id : ℕ)
deriving DecidableEq

/-- Modelled from the spec: a path (`SkPath`, not among the given sources) is
opaque except for its geometry classification, a generation identifier, and a
volatile flag. -/
structure SkPath where
  geom : PathGeom
  genID : ℕ
  volatile : Bool
deriving DecidableEq

/-- A freshly reset, empty path (the result of `SkPath::reset`). -/
def SkPath.emptyPath : SkPath := ⟨PathGeom.empty, 0, false⟩

/-- Modelled from the spec: the path synthesized for a rounded-rect outline by
`asPath` (reset + `addRRect`). -/
def SkPath.mkRRectPath (rr : SkRRect) : SkPath := ⟨PathGeom.rrect rr, 0, false⟩

/-- Well-formedness of the geometry collaborator's classification: the
rect/oval/rrect reported by the predicates is never empty (an empty input is
reported as empty instead). -/
def SkPath.wfB (p : SkPath) : Bool :=
  match p.geom with
  | PathGeom.rrect rr => !rr.isEmpty
  | PathGeom.oval rc => !rc.isEmpty
  | PathGeom.rect rc _ => !rc.isEmpty
  | _ => true

/-- Modelled from the spec: stroke cap styles. -/
inductive SkCap where
  | butt
  | round
  | square
deriving DecidableEq

/-- Modelled from the spec: stroke join styles. -/
inductive SkJoin where
  | miter
  | round
  | bevel
deriving DecidableEq

/-- Modelled from the spec: `SkStrokeRec::Style`. -/
inductive SRStyle where
  | hairline
  | fill
  | stroke
  | strokeAndFill
deriving DecidableEq

/-- Modelled from the spec: the stroke description (`SkStrokeRec`, not among
the given sources). -/
structure SkStrokeRec where
  style : SRStyle
  width : SkScalar
  miter : SkScalar
  cap : SkCap
  join : SkJoin
  resScale : SkScalar
deriving DecidableEq

/-- Modelled from the spec: `SkStrokeRec::needToApply` — true exactly for the
stroke and stroke-and-fill styles. -/
def SkStrokeRec.needToApply (sr : SkStrokeRec) : Bool :=
  match sr.style with
  | SRStyle.stroke => true
  | SRStyle.strokeAndFill => true
  | _ => false

/-- Modelled from the spec: `SkStrokeRec::isFillStyle`. -/
def SkStrokeRec.isFillStyle (sr : SkStrokeRec) : Bool :=
  match sr.style with
  | SRStyle.fill => true
  | _ => false

/-- Modelled from the spec: `SkStrokeRec::setResScale`. -/
def SkStrokeRec.setResScale (sr : SkStrokeRec) (v : SkScalar) : SkStrokeRec :=
  { sr with resScale := v }

/-- The default (fill) stroke description. -/
def SkStrokeRec.fillRec : SkStrokeRec :=
  ⟨SRStyle.fill, 0, 4, SkCap.butt, SkJoin.miter, 1⟩

/-- Modelled from the spec: a path effect — a dash effect (phase plus
intervals, which the style can encode into a key) or a generic effect (no
key). -/
inductive SkPathEffect where
  | dash (phase : SkScalar) (intervals : List SkScalar)
  | generic (id : ℕ)
deriving DecidableEq

/-- Modelled from the spec: `SkStrokeRec::InitStyle` — the fill-vs-hairline
classification produced by applying a style to a path. -/
inductive InitStyle where
  | fill
  | hairline
deriving DecidableEq

/-- Modelled from the spec: the style descriptor (`GrStyle`, not among the
given sources) — a stroke description plus an optional path effect. -/
structure GrStyle where
  strokeRec : SkStrokeRec
  pathEffect : Option SkPathEffect
deriving DecidableEq

/-- The default style: plain fill, no path effect (`GrStyle()`). -/
def GrStyle.default : GrStyle := ⟨SkStrokeRec.fillRec, none⟩

/-- Modelled from the spec: `GrStyle::resetToInitStyle` — reset to a plain
fill or hairline with no path effect. -/
def GrStyle.fromInitStyle : InitStyle → GrStyle
  | InitStyle.fill => GrStyle.default
  | InitStyle.hairline => ⟨{ SkStrokeRec.fillRec with style := SRStyle.hairline }, none⟩

/-- Modelled from the spec: `GrStyle::applies` — whether the style has any
effect on the geometry at all (a path effect, or anything but a plain fill). -/
def GrStyle.applies (sty : GrStyle) : Bool :=
  sty.pathEffect.isSome || !sty.strokeRec.isFillStyle

/-- The two apply modes (`GrStyle::Apply`). -/
inductive StyleApply where
  | pathEffectOnly
  | pathEffectAndStrokeRec
deriving DecidableEq

/-- Packing of the stroke enums into one key word (style, join, cap fields of
a single 32-bit word). -/
def SRStyle.idx : SRStyle → ℕ
  | SRStyle.hairline => 0
  | SRStyle.fill => 1
  | SRStyle.stroke => 2
  | SRStyle.strokeAndFill => 3

/-- Index of a join style inside the packed stroke key word. -/
def SkJoin.idx : SkJoin → ℕ
  | SkJoin.miter => 0
  | SkJoin.round => 1
  | SkJoin.bevel => 2

/-- Index of a cap style inside the packed stroke key word. -/
def SkCap.idx : SkCap → ℕ
  | SkCap.butt => 0
  | SkCap.round => 1
  | SkCap.square => 2

/-- Modelled from the spec: `GrStyle::KeySize(style, apply, flags)` — the
style's key-contribution size for an apply mode: the dash segment (scale,
phase, and the intervals) when dashed, negative (no key) for a generic path
effect, plus the stroke segment (4 words) when the mode includes the stroke
and the stroke needs applying. -/
def GrStyle.KeySize (sty : GrStyle) (ap : StyleApply) (flags : Bool) : ℤ :=
  let pe : ℤ :=
    match sty.pathEffect with
    | some (SkPathEffect.dash _ iv) => (2 + iv.length : ℕ)
    | some (SkPathEffect.generic _) => -1
    | none => 0
  if pe < 0 then -1
  else
    match ap with
    | StyleApply.pathEffectOnly => pe
    | StyleApply.pathEffectAndStrokeRec =>
        pe + (if sty.strokeRec.needToApply then 4 else 0)

/-- Modelled from the spec: `GrStyle::WriteKey(key, style, apply, scale,
flags)` — the full style key is structured as (path-effect segment, stroke
segment).  The closed flag affects how cap behavior is encoded: for a closed
shape with no path effect the cap is irrelevant and encoded as the default,
while a path effect may unclose the shape so the actual cap is kept. -/
def GrStyle.WriteKey (sty : GrStyle) (ap : StyleApply) (scale : SkScalar)
    (flags : Bool) : List KeyWord :=
  (match sty.pathEffect with
   | some (SkPathEffect.dash ph iv) =>
       KeyWord.scalar scale :: KeyWord.scalar ph :: iv.map KeyWord.scalar
   | _ => []) ++
  (match ap with
   | StyleApply.pathEffectOnly => []
   | StyleApply.pathEffectAndStrokeRec =>
       if sty.strokeRec.needToApply then
         let cap := if flags && sty.pathEffect.isNone then SkCap.butt
                    else sty.strokeRec.cap
         [KeyWord.scalar scale,
          KeyWord.nat (sty.strokeRec.style.idx + 4 * sty.strokeRec.join.idx +
                       16 * cap.idx),
          KeyWord.scalar sty.strokeRec.miter,
          KeyWord.scalar sty.strokeRec.width]
       else [])

/-- The opaque external geometric services: path-effect filtering (which may
fail) and stroke application.  Both are pure functions of their inputs. -/
structure StyleEnv where
  filterPath : SkPathEffect → SkPath → SkStrokeRec → Option SkPath
  strokeApply : SkStrokeRec → SkPath → SkPath

/-- Modelled from the spec: `GrStyle::applyToPath` for a style with no path
effect — apply the stroke description (rescaled to `scale`) when it needs
applying (result classified as fill), otherwise pass the geometry through as
a hairline. -/
def GrStyle.applyToPathModel (env : StyleEnv) (sty : GrStyle) (src : SkPath)
    (scale : SkScalar) : SkPath × InitStyle :=
  let sr := sty.strokeRec.setResScale scale
  if sr.needToApply then (env.strokeApply sr src, InitStyle.fill)
  else (src, InitStyle.hairline)

/-- The variant tag (`GrShape::Type`). -/
inductive ShapeType where
  | kEmpty
  | kRRect
  | kPath
deriving DecidableEq

/-- The shape value (`GrShape`): variant tag, rounded-rect storage, lazily
allocated path storage, style, and inherited key. -/
structure GrShape where
  fType : ShapeType
  fRRect : SkRRect
  fPath : Option SkPath
  fStyle : GrStyle
  fInheritedKey : List KeyWord
deriving DecidableEq

/-- The path storage, defaulting to an empty path when unset (the source only
reads it when the variant is `kPath`, where it is always set). -/
def GrShape.thePath (s : GrShape) : SkPath := s.fPath.getD SkPath.emptyPath

/-- The default-constructed shape: empty variant, default style, no key. -/
def GrShape.default : GrShape :=
  ⟨ShapeType.kEmpty, SkRRect.zero, none, GrStyle.default, []⟩

/-- `GrShape::knownToBeClosed` — empty and rounded-rect variants are closed;
a path is conservatively treated as possibly open. -/
def GrShape.knownToBeClosed (s : GrShape) : Bool :=
  match s.fType with
  | ShapeType.kEmpty => true
  | ShapeType.kRRect => true
  | ShapeType.kPath => false

/-- `GrShape::asPath` — materialize the shape as a path. -/
def GrShape.asPathNew (s : GrShape) : SkPath :=
  match s.fType with
  | ShapeType.kEmpty => SkPath.emptyPath
  | ShapeType.kRRect => SkPath.mkRRectPath s.fRRect
  | ShapeType.kPath => s.thePath

/-- `GrShape::unstyledKeySize` — the inherited key's word count when present;
otherwise 1 for `kEmpty`, the rounded-rect layout size in words for `kRRect`,
and 1 (generation id) or -1 (volatile) for `kPath`. -/
def GrShape.unstyledKeySize (s : GrShape) : ℤ :=
  if s.fInheritedKey ≠ [] then (s.fInheritedKey.length : ℤ)
  else
    match s.fType with
    | ShapeType.kEmpty => 1
    | ShapeType.kRRect => ((SkRRect.kSizeInMemory / 4 : ℕ) : ℤ)
    | ShapeType.kPath => if s.thePath.volatile then -1 else 1

/-- `GrShape::writeUnstyledKey` — the words written into the caller's buffer:
the inherited key verbatim when present, otherwise the sentinel word, the
serialized rounded-rect layout, or the path's generation identifier. -/
def GrShape.unstyledKeyWords (s : GrShape) : List KeyWord :=
  if s.fInheritedKey ≠ [] then s.fInheritedKey
  else
    match s.fType with
    | ShapeType.kEmpty => [KeyWord.nat 1]
    | ShapeType.kRRect => s.fRRect.writeToMemory
    | ShapeType.kPath => [KeyWord.nat s.thePath.genID]

/-- `GrShape::AttemptToReduceFromPathImpl` — classify a path against the
style: empty path, exact rrect, exact oval, exact rect (reduced only when
closed or the style is a plain fill with no path effect), else stay a path.
Returns the reduced type and the rounded rect written on success (the
caller's current rrect is passed through otherwise). -/
def GrShape.AttemptToReduceFromPathImpl (p : SkPath) (cur : SkRRect)
    (pe : Option SkPathEffect) (sr : SkStrokeRec) : ShapeType × SkRRect :=
  match p.geom with
  | PathGeom.empty => (ShapeType.kEmpty, cur)
  | PathGeom.rrect rr => (ShapeType.kRRect, rr)
  | PathGeom.oval rc => (ShapeType.kRRect, SkRRect.mkOval rc)
  | PathGeom.rect rc closed =>
      if closed || (pe.isNone && sr.isFillStyle) then
        (ShapeType.kRRect, SkRRect.mkRect rc)
      else (ShapeType.kPath, cur)
  | PathGeom.general _ => (ShapeType.kPath, cur)

/-- `GrShape::attemptToReduceFromPath` — reduce the path variant in place;
when a simpler form applies, the path storage and inherited key are
discarded. -/
def GrShape.attemptToReduceFromPathFn (s : GrShape) : GrShape :=
  let tr := GrShape.AttemptToReduceFromPathImpl s.thePath s.fRRect
              s.fStyle.pathEffect s.fStyle.strokeRec
  if tr.1 = ShapeType.kPath then { s with fType := ShapeType.kPath }
  else { s with fType := tr.1, fRRect := tr.2, fPath := none,
                fInheritedKey := [] }

/-- `GrShape(const SkPath&, const GrStyle&)` — construct from a path and
canonicalize. -/
def GrShape.ofPath (p : SkPath) (sty : GrStyle) : GrShape :=
  GrShape.attemptToReduceFromPathFn
    ⟨ShapeType.kPath, SkRRect.zero, some p, sty, []⟩

/-- `GrShape(const SkRRect&, const GrStyle&)` — construct from a rounded rect;
the only reduction is empty rect → empty shape (`attemptToReduceFromRRect`). -/
def GrShape.ofRRect (rr : SkRRect) (sty : GrStyle) : GrShape :=
  if rr.isEmpty then ⟨ShapeType.kEmpty, rr, none, sty, []⟩
  else ⟨ShapeType.kRRect, rr, none, sty, []⟩

/-- `GrShape::GrShape(const GrShape&)` — the copy constructor: copies the
variant, style, and the active geometry; the inherited-key copy in the source
sits after unconditional returns in every switch case and never executes. -/
def GrShape.copyCtor (that : GrShape) : GrShape :=
  match that.fType with
  | ShapeType.kEmpty => ⟨ShapeType.kEmpty, SkRRect.zero, none, that.fStyle, []⟩
  | ShapeType.kRRect => ⟨ShapeType.kRRect, that.fRRect, none, that.fStyle, []⟩
  | ShapeType.kPath =>
      ⟨ShapeType.kPath, SkRRect.zero, some that.thePath, that.fStyle, []⟩

/-- `GrShape::operator=` — assignment: copy style, tag, the active geometry
(resetting path storage when leaving the path variant, deep-copying it when
entering/staying), and the inherited key words. -/
def GrShape.assign (dst src : GrShape) : GrShape :=
  let wasPath := dst.fType = ShapeType.kPath
  let fPath1 : Option SkPath :=
    match src.fType with
    | ShapeType.kPath => some src.thePath
    | _ => if wasPath then none else dst.fPath
  let fRRect1 : SkRRect :=
    match src.fType with
    | ShapeType.kRRect => src.fRRect
    | _ => dst.fRRect
  ⟨src.fType, fRRect1, fPath1, src.fStyle, src.fInheritedKey⟩

/-- Mark the result's path volatile (no key can be derived). -/
def GrShape.markVolatile (s : GrShape) : GrShape :=
  { s with fPath := some { s.thePath with volatile := true } }

/-- `GrShape::setInheritedKey` — runs only when the shape is still a path:
derive the inherited key from the key-reference shape's key (or its direct
geometry key) plus the style's key contribution; on either being negative,
mark the path volatile and produce no key. -/
def GrShape.setInheritedKeyFn (s : GrShape) (parent : GrShape)
    (ap : StyleApply) (scale : SkScalar) : GrShape :=
  if s.fType ≠ ShapeType.kPath then s
  else if parent.fInheritedKey = [] ∧ parent.unstyledKeySize < 0 then
    GrShape.markVolatile s
  else if GrStyle.KeySize parent.fStyle ap parent.knownToBeClosed < 0 then
    GrShape.markVolatile s
  else
    { s with fInheritedKey :=
        (if parent.fInheritedKey = [] then parent.unstyledKeyWords
         else parent.fInheritedKey) ++
        GrStyle.WriteKey parent.fStyle ap scale parent.knownToBeClosed }

/-- `GrShape::GrShape(const GrShape& parent, GrStyle::Apply, SkScalar)` — the
style-applying constructor: no-op short-circuit via assignment; otherwise run
the path effect (empty default shape on failure), determine the key-reference
shape when applying path effect and stroke together, apply the stroke or the
plain style, re-canonicalize, and derive the inherited key. -/
def GrShape.applyStyleCtor (env : StyleEnv) (parent : GrShape)
    (ap : StyleApply) (scale : SkScalar) : GrShape :=
  if parent.fStyle.applies = false ∨
     (ap = StyleApply.pathEffectOnly ∧ parent.fStyle.pathEffect = none) then
    GrShape.assign GrShape.default parent
  else
    match parent.fStyle.pathEffect with
    | some pe =>
      let src := parent.asPathNew
      let sr1 := parent.fStyle.strokeRec.setResScale scale
      match env.filterPath pe src sr1 with
      | none => GrShape.default
      | some fp =>
        match ap with
        | StyleApply.pathEffectAndStrokeRec =>
          if sr1.needToApply then
            let tr := GrShape.AttemptToReduceFromPathImpl fp SkRRect.zero
                        none sr1
            let parentForKey : GrShape :=
              match tr.1 with
              | ShapeType.kEmpty => GrShape.default
              | ShapeType.kRRect => GrShape.ofRRect tr.2 ⟨sr1, none⟩
              | ShapeType.kPath => parent
            let stroked := env.strokeApply sr1 fp
            GrShape.setInheritedKeyFn
              (GrShape.attemptToReduceFromPathFn
                ⟨ShapeType.kPath, SkRRect.zero, some stroked,
                 GrStyle.default, []⟩)
              parentForKey ap scale
          else
            GrShape.setInheritedKeyFn
              (GrShape.attemptToReduceFromPathFn
                ⟨ShapeType.kPath, SkRRect.zero, some fp, ⟨sr1, none⟩, []⟩)
              parent ap scale
        | StyleApply.pathEffectOnly =>
          GrShape.setInheritedKeyFn
            (GrShape.attemptToReduceFromPathFn
              ⟨ShapeType.kPath, SkRRect.zero, some fp, ⟨sr1, none⟩, []⟩)
            parent ap scale
    | none =>
      let src := parent.asPathNew
      let res := GrStyle.applyToPathModel env parent.fStyle src scale
      GrShape.setInheritedKeyFn
        (GrShape.attemptToReduceFromPathFn
          ⟨ShapeType.kPath, SkRRect.zero, some res.1,
           GrStyle.fromInitStyle res.2, []⟩)
        parent ap scale

/-- Observational value equality of shapes: same variant, style, inherited
key, and the geometry of the active variant. -/
def GrShape.eqvB (a b : GrShape) : Bool :=
  decide (a.fType = b.fType) && decide (a.fStyle = b.fStyle) &&
  decide (a.fInheritedKey = b.fInheritedKey) &&
  (!decide (a.fType = ShapeType.kRRect) || decide (a.fRRect = b.fRRect)) &&
  (!decide (a.fType = ShapeType.kPath) || decide (a.thePath = b.thePath))

/-- Same final geometry: same variant and the same geometry of the active
variant (path contents compared by classification). -/
def GrShape.sameGeoB (a b : GrShape) : Bool :=
  decide (a.fType = b.fType) &&
  (!decide (a.fType = ShapeType.kRRect) || decide (a.fRRect = b.fRRect)) &&
  (!decide (a.fType = ShapeType.kPath) ||
    decide (a.thePath.geom = b.thePath.geom))

/-- The inherited-key invariant: only the path variant may carry a non-empty
inherited key. -/
def GrShape.keyInvB (s : GrShape) : Bool :=
  decide (s.fType = ShapeType.kPath) || s.fInheritedKey.isEmpty

/-- The canonicalization step as invoked on a shape: the path variant runs
the path reduction; the other variants are untouched by it. -/
def GrShape.canonicalizeStep (s : GrShape) : GrShape :=
  if s.fType = ShapeType.kPath then s.attemptToReduceFromPathFn else s

theorem SkStrokeRec.needToApply_setResScale (sr : SkStrokeRec) (v : SkScalar) :
    (sr.setResScale v).needToApply = sr.needToApply := rfl

theorem SkStrokeRec.isFill_of_needToApply (sr : SkStrokeRec)
    (h : sr.needToApply = true) : sr.isFillStyle = false := by
  obtain ⟨st, w, m, c, j, rs⟩ := sr
  cases st <;> simp_all [SkStrokeRec.needToApply, SkStrokeRec.isFillStyle]

theorem GrStyle.applies_of_needToApply (sr : SkStrokeRec)
    (pe : Option SkPathEffect) (h : sr.needToApply = true) :
    GrStyle.applies ⟨sr, pe⟩ = true := by
  simp [GrStyle.applies, SkStrokeRec.isFill_of_needToApply sr h]

theorem GrStyle.applies_of_pe (sty : GrStyle) (pe : SkPathEffect)
    (h : sty.pathEffect = some pe) : sty.applies = true := by
  simp [GrStyle.applies, h]

theorem GrShape.keyInvB_reduce (s : GrShape) :
    GrShape.keyInvB (GrShape.attemptToReduceFromPathFn s) = true := by
  rw [GrShape.attemptToReduceFromPathFn]
  split
  · simp [GrShape.keyInvB]
  · simp [GrShape.keyInvB]

theorem GrShape.keyInvB_setInheritedKeyFn (s parent : GrShape)
    (ap : StyleApply) (scale : SkScalar) (h : GrShape.keyInvB s = true) :
    GrShape.keyInvB (GrShape.setInheritedKeyFn s parent ap scale) = true := by
  rw [GrShape.setInheritedKeyFn]
  split
  · exact h
  · split
    · simp [GrShape.keyInvB, GrShape.markVolatile]
      simp [GrShape.keyInvB] at h
      rcases h with h | h
      · exact Or.inl h
      · exact Or.inr h
    · split
      · simp [GrShape.keyInvB, GrShape.markVolatile]
        simp [GrShape.keyInvB] at h
        rcases h with h | h
        · exact Or.inl h
        · exact Or.inr h
      · simp_all [GrShape.keyInvB, GrShape.setInheritedKeyFn]

/-- C9: canonicalization is idempotent — running the path-reduction procedure
on the result of a first reduction yields the same variant and parameters;
re-reducing an already Empty, RoundedRect, or irreducible Path result changes
nothing. -/
theorem grShape_canonicalize_idempotent (s : GrShape) :
    GrShape.canonicalizeStep (GrShape.canonicalizeStep s) =
      GrShape.canonicalizeStep s := by
  obtain ⟨t, rrc, p, sty, key⟩ := s
  by_cases h : t = ShapeType.kPath
  · subst h
    have h1 : GrShape.canonicalizeStep ⟨ShapeType.kPath, rrc, p, sty, key⟩ =
        GrShape.attemptToReduceFromPathFn
          ⟨ShapeType.kPath, rrc, p, sty, key⟩ := by
      rw [GrShape.canonicalizeStep]
      exact if_pos rfl
    rw [h1]
    simp only [GrShape.attemptToReduceFromPathFn]
    split
    · rename_i htr
      show GrShape.canonicalizeStep ⟨ShapeType.kPath, rrc, p, sty, key⟩ =
        ⟨ShapeType.kPath, rrc, p, sty, key⟩
      rw [h1]
      simp only [GrShape.attemptToReduceFromPathFn]
      rw [if_pos htr]
    · rename_i htr
      rw [GrShape.canonicalizeStep]
      apply if_neg
      simpa using htr
  · have h1 : GrShape.canonicalizeStep ⟨t, rrc, p, sty, key⟩ =
        ⟨t, rrc, p, sty, key⟩ := by
      rw [GrShape.canonicalizeStep]
      exact if_neg (by simpa using h)
    rw [h1, h1]

theorem GrShape.keyInvB_assign (d src : GrShape)
    (h : GrShape.keyInvB src = true) :
    GrShape.keyInvB (GrShape.assign d src) = true := by
  simp only [GrShape.keyInvB, GrShape.assign] at h ⊢
  exact h

/-- C10: only the path variant can carry a non-empty inherited key — all
public constructions establish the invariant, copy/assignment/style
application preserve it, and when canonicalization reduces a path to the
empty or rounded-rect variant it discards the path storage and the inherited
key. -/
theorem grShape_inheritedKey_invariant (env : StyleEnv) (parent d : GrShape)
    (ap : StyleApply) (scale : SkScalar) (p : SkPath) (rr : SkRRect)
    (sty : GrStyle) (h : GrShape.keyInvB parent = true) :
    GrShape.keyInvB (GrShape.applyStyleCtor env parent ap scale) = true ∧
    GrShape.keyInvB (GrShape.copyCtor parent) = true ∧
    GrShape.keyInvB (GrShape.assign d parent) = true ∧
    GrShape.keyInvB (GrShape.ofPath p sty) = true ∧
    GrShape.keyInvB (GrShape.ofRRect rr sty) = true ∧
    (parent.fType = ShapeType.kPath →
      (GrShape.attemptToReduceFromPathFn parent).fType ≠ ShapeType.kPath →
      (GrShape.attemptToReduceFromPathFn parent).fPath = none ∧
      (GrShape.attemptToReduceFromPathFn parent).fInheritedKey = []) := by
  refine ⟨?_, ?_, ?_, ?_, ?_, ?_⟩
  · rw [GrShape.applyStyleCtor]
    split
    · exact GrShape.keyInvB_assign _ _ h
    · repeat'
        first
        | exact GrShape.keyInvB_setInheritedKeyFn _ _ _ _
            (GrShape.keyInvB_reduce _)
        | rfl
        | split
        | simp only []
  · rw [GrShape.copyCtor]
    split <;> simp [GrShape.keyInvB]
  · exact GrShape.keyInvB_assign _ _ h
  · exact GrShape.keyInvB_reduce _
  · rw [GrShape.ofRRect]
    split <;> simp [GrShape.keyInvB]
  · intro ht hred
    rw [GrShape.attemptToReduceFromPathFn] at hred ⊢
    split at hred
    · rename_i htr
      exact absurd rfl hred
    · rename_i htr
      rw [if_neg htr]
      exact ⟨rfl, rfl⟩

theorem grShape_inheritedKey_invariant_witness :
    GrShape.keyInvB GrShape.default = true ∧
    GrShape.keyInvB (GrShape.copyCtor GrShape.default) = true := by
  refine ⟨by decide, ?_⟩
  exact (grShape_inheritedKey_invariant
    ⟨fun _ _ _ => none, fun _ p => p⟩ GrShape.default GrShape.default
    StyleApply.pathEffectOnly 1 SkPath.emptyPath SkRRect.zero
    GrStyle.default (by decide)).2.1

/-- A path-variant shape carrying a non-empty inherited key, as produced by
style application with a dashed style (the state the copy constructor is
expected to preserve). -/
def c2InheritedKeyShape : GrShape :=
  ⟨ShapeType.kPath, SkRRect.zero, some ⟨PathGeom.general 3, 5, false⟩,
   GrStyle.default, [KeyWord.nat 7]⟩

/-- C2: the copy constructor drops the inherited key — in the source the
inherited-key copy sits after unconditional returns in every switch case and
never executes, so the copy of a path shape with a non-empty inherited key
has an empty one, while assignment (whose key copy is reachable) preserves
the full observable value. -/
theorem grShape_copyCtor_drops_inheritedKey :
    (GrShape.copyCtor c2InheritedKeyShape).fInheritedKey = [] ∧
    c2InheritedKeyShape.fInheritedKey = [KeyWord.nat 7] ∧
    GrShape.eqvB (GrShape.copyCtor c2InheritedKeyShape)
      c2InheritedKeyShape = false ∧
    GrShape.eqvB (GrShape.assign GrShape.default c2InheritedKeyShape)
      c2InheritedKeyShape = true := by
  decide

/-- C3: the unstyled key size is the inherited key's word count when one is
present; otherwise 1 for `Empty`, the rounded-rect canonical layout size in
key words (that size dividing evenly) for `RoundedRect`, 1 for a non-volatile
path, and a negative value for a volatile path. -/
theorem grShape_unstyledKeySize_spec (s : GrShape) :
    (s.fInheritedKey ≠ [] →
      s.unstyledKeySize = (s.fInheritedKey.length : ℤ)) ∧
    (s.fInheritedKey = [] →
      (s.fType = ShapeType.kEmpty → s.unstyledKeySize = 1) ∧
      (s.fType = ShapeType.kRRect →
        s.unstyledKeySize = ((SkRRect.kSizeInMemory / 4 : ℕ) : ℤ) ∧
        SkRRect.kSizeInMemory % 4 = 0) ∧
      (s.fType = ShapeType.kPath →
        (s.thePath.volatile = false → s.unstyledKeySize = 1) ∧
        (s.thePath.volatile = true → s.unstyledKeySize < 0))) := by
  constructor
  · intro h
    simp [GrShape.unstyledKeySize, h]
  · intro h
    refine ⟨fun ht => ?_, fun ht => ⟨?_, by decide⟩, fun ht => ⟨?_, ?_⟩⟩
    · simp [GrShape.unstyledKeySize, h, ht]
    · simp [GrShape.unstyledKeySize, h, ht]
    · intro hv
      simp [GrShape.unstyledKeySize, h, ht, hv]
    · intro hv
      simp [GrShape.unstyledKeySize, h, ht, hv]

theorem grShape_unstyledKeySize_spec_witness :
    GrShape.default.unstyledKeySize = 1 :=
  ((grShape_unstyledKeySize_spec GrShape.default).2 rfl).1 rfl

/-- C4: with a positive unstyled key size, the key written is exactly that
many words — the inherited key verbatim when present, otherwise the sentinel
word for `Empty`, the serialized rounded-rect layout for `RoundedRect`, or
the generation identifier for a (necessarily non-volatile) path. -/
theorem grShape_writeUnstyledKey_spec (s : GrShape)
    (h : 0 < s.unstyledKeySize) :
    ((s.unstyledKeyWords.length : ℤ) = s.unstyledKeySize) ∧
    (s.fInheritedKey ≠ [] → s.unstyledKeyWords = s.fInheritedKey) ∧
    (s.fInheritedKey = [] →
      (s.fType = ShapeType.kEmpty → s.unstyledKeyWords = [KeyWord.nat 1]) ∧
      (s.fType = ShapeType.kRRect →
        s.unstyledKeyWords = s.fRRect.writeToMemory) ∧
      (s.fType = ShapeType.kPath → s.thePath.volatile = false ∧
        s.unstyledKeyWords = [KeyWord.nat s.thePath.genID])) := by
  obtain ⟨t, rrc, p, sty, key⟩ := s
  cases key with
  | cons w ws =>
    refine ⟨?_, fun _ => ?_, fun hk => by simp at hk⟩
    · simp [GrShape.unstyledKeyWords, GrShape.unstyledKeySize]
    · simp [GrShape.unstyledKeyWords]
  | nil =>
    cases t with
    | kEmpty =>
      refine ⟨?_, fun hk => by simp at hk, fun _ => ?_⟩
      · simp [GrShape.unstyledKeyWords, GrShape.unstyledKeySize]
      · refine ⟨fun _ => by simp [GrShape.unstyledKeyWords], fun ht => ?_,
          fun ht => ?_⟩ <;> simp at ht
    | kRRect =>
      refine ⟨?_, fun hk => by simp at hk, fun _ => ?_⟩
      · simp [GrShape.unstyledKeyWords, GrShape.unstyledKeySize,
          SkRRect.writeToMemory, SkRRect.kSizeInMemory]
      · refine ⟨fun ht => by simp at ht,
          fun _ => by simp [GrShape.unstyledKeyWords], fun ht => by simp at ht⟩
    | kPath =>
      have hv : (GrShape.thePath ⟨ShapeType.kPath, rrc, p, sty, []⟩).volatile
          = false := by
        by_contra hcon
        rw [GrShape.unstyledKeySize] at h
        simp [eq_true_of_ne_false hcon] at h
      refine ⟨?_, fun hk => by simp at hk, fun _ => ?_⟩
      · simp [GrShape.unstyledKeyWords, GrShape.unstyledKeySize, hv]
      · refine ⟨fun ht => by simp at ht, fun ht => by simp at ht,
          fun _ => ⟨hv, by simp [GrShape.unstyledKeyWords]⟩⟩

theorem grShape_writeUnstyledKey_spec_witness :
    0 < GrShape.default.unstyledKeySize ∧
    (GrShape.default.unstyledKeyWords.length : ℤ) =
      GrShape.default.unstyledKeySize :=
  ⟨by decide, (grShape_writeUnstyledKey_spec GrShape.default (by decide)).1⟩

/-- C5: during key inheritance, when the key-reference shape's own unstyled
key size or the style's key-contribution size is negative, the result's path
is marked volatile, no inherited key is produced (no error is raised), and
the resulting shape's unstyled key size is -1. -/
theorem grShape_setInheritedKey_negative_volatile (s parent : GrShape)
    (ap : StyleApply) (scale : SkScalar)
    (ht : s.fType = ShapeType.kPath) (hk : s.fInheritedKey = [])
    (h : parent.unstyledKeySize < 0 ∨
      GrStyle.KeySize parent.fStyle ap parent.knownToBeClosed < 0) :
    (GrShape.setInheritedKeyFn s parent ap scale).thePath.volatile = true ∧
    (GrShape.setInheritedKeyFn s parent ap scale).fInheritedKey = [] ∧
    (GrShape.setInheritedKeyFn s parent ap scale).unstyledKeySize = -1 := by
  have hlen : parent.fInheritedKey ≠ [] → 0 ≤ parent.unstyledKeySize := by
    intro hne
    rw [GrShape.unstyledKeySize, if_pos hne]
    omega
  have hmv : GrShape.setInheritedKeyFn s parent ap scale =
      GrShape.markVolatile s := by
    rw [GrShape.setInheritedKeyFn, if_neg (by simp [ht])]
    by_cases h1 : parent.fInheritedKey = [] ∧ parent.unstyledKeySize < 0
    · rw [if_pos h1]
    · have hsty : GrStyle.KeySize parent.fStyle ap parent.knownToBeClosed
          < 0 := by
        rcases h with h | h
        · exfalso
          rcases not_and_or.mp h1 with hA | hB
          · have := hlen hA
            omega
          · exact hB h
        · exact h
      rw [if_neg h1, if_pos hsty]
  rw [hmv]
  refine ⟨?_, ?_, ?_⟩
  · simp [GrShape.markVolatile, GrShape.thePath]
  · simpa [GrShape.markVolatile] using hk
  · rw [GrShape.unstyledKeySize]
    simp [GrShape.markVolatile, hk, ht, GrShape.thePath]

theorem grShape_setInheritedKey_negative_volatile_witness :
    (GrShape.setInheritedKeyFn
      ⟨ShapeType.kPath, SkRRect.zero, some ⟨PathGeom.general 0, 1, false⟩,
       GrStyle.default, []⟩
      ⟨ShapeType.kPath, SkRRect.zero, some ⟨PathGeom.general 1, 2, true⟩,
       GrStyle.default, []⟩
      StyleApply.pathEffectOnly 1).unstyledKeySize = -1 :=
  (grShape_setInheritedKey_negative_volatile _ _ _ _ rfl rfl
    (Or.inl (by decide))).2.2

/-- C6: a path that is exactly an axis-aligned rectangle reduces to the
rounded-rect variant (with zero radii) iff the contour is closed or the style
is a plain fill with no path effect; otherwise it stays a path. -/
theorem grShape_reduce_rect_iff (p : SkPath) (rc : SkRect) (closed : Bool)
    (cur : SkRRect) (pe : Option SkPathEffect) (sr : SkStrokeRec)
    (h : p.geom = PathGeom.rect rc closed) :
    ((GrShape.AttemptToReduceFromPathImpl p cur pe sr).1 = ShapeType.kRRect ↔
      (closed = true ∨ (pe = none ∧ sr.isFillStyle = true))) ∧
    ((GrShape.AttemptToReduceFromPathImpl p cur pe sr).1 = ShapeType.kRRect →
      GrShape.AttemptToReduceFromPathImpl p cur pe sr =
        (ShapeType.kRRect, SkRRect.mkRect rc)) ∧
    ((GrShape.AttemptToReduceFromPathImpl p cur pe sr).1 ≠ ShapeType.kRRect →
      (GrShape.AttemptToReduceFromPathImpl p cur pe sr).1 =
        ShapeType.kPath) := by
  simp only [GrShape.AttemptToReduceFromPathImpl, h]
  by_cases hc : (closed || (pe.isNone && sr.isFillStyle)) = true
  · rw [if_pos hc]
    refine ⟨?_, fun _ => rfl, fun hne => absurd rfl hne⟩
    simp only [Bool.or_eq_true, Bool.and_eq_true, Option.isNone_iff_eq_none]
      at hc
    simpa using hc
  · rw [if_neg hc]
    refine ⟨?_, fun hx => by simp at hx, fun _ => rfl⟩
    simp only [Bool.or_eq_true, Bool.and_eq_true, Option.isNone_iff_eq_none]
      at hc
    constructor
    · intro hx
      exact absurd hx (by simp)
    · intro hx
      exact absurd hx (by simpa using hc)

theorem grShape_reduce_rect_iff_witness :
    (GrShape.AttemptToReduceFromPathImpl
      ⟨PathGeom.rect ⟨0, 0, 1, 1⟩ true, 0, false⟩ SkRRect.zero none
      SkStrokeRec.fillRec).1 = ShapeType.kRRect :=
  ((grShape_reduce_rect_iff _ ⟨0, 0, 1, 1⟩ true _ _ _ rfl).1).mpr
    (Or.inl rfl)

/-- C7: when the path effect's filter operation fails during style
application, the result is the fully default shape — empty variant, default
style, no path storage — not a propagated error. -/
theorem grShape_applyStyle_filterFail (env : StyleEnv) (parent : GrShape)
    (ap : StyleApply) (scale : SkScalar) (pe : SkPathEffect)
    (hpe : parent.fStyle.pathEffect = some pe)
    (hf : env.filterPath pe parent.asPathNew
        (parent.fStyle.strokeRec.setResScale scale) = none) :
    GrShape.applyStyleCtor env parent ap scale = GrShape.default := by
  rw [GrShape.applyStyleCtor, if_neg ?hcond]
  case hcond =>
    rintro (hA | ⟨-, hB⟩)
    · rw [GrStyle.applies_of_pe parent.fStyle pe hpe] at hA
      simp at hA
    · rw [hpe] at hB
      simp at hB
  simp [hpe, hf]

theorem grShape_applyStyle_filterFail_witness :
    GrShape.applyStyleCtor ⟨fun _ _ _ => none, fun _ p => p⟩
      (GrShape.ofRRect ⟨⟨0, 0, 1, 1⟩, 0, 0, 0, 0, 0, 0, 0, 0⟩
        ⟨SkStrokeRec.fillRec, some (SkPathEffect.generic 0)⟩)
      StyleApply.pathEffectOnly 1 = GrShape.default :=
  grShape_applyStyle_filterFail _ _ _ _ (SkPathEffect.generic 0)
    (by decide) rfl

/-- C8: when the parent's style has no effect, or the mode is path-effect-only
and the parent has no path effect, style application returns an exact
value-equal copy of the parent (same variant, geometry, style, and inherited
key). -/
theorem grShape_applyStyle_noop (env : StyleEnv) (parent : GrShape)
    (ap : StyleApply) (scale : SkScalar)
    (h : parent.fStyle.applies = false ∨
      (ap = StyleApply.pathEffectOnly ∧ parent.fStyle.pathEffect = none)) :
    GrShape.eqvB (GrShape.applyStyleCtor env parent ap scale) parent
      = true := by
  rw [GrShape.applyStyleCtor, if_pos h]
  obtain ⟨t, rrc, p, sty, key⟩ := parent
  cases t <;>
    simp [GrShape.assign, GrShape.eqvB, GrShape.thePath, GrShape.default]

theorem grShape_applyStyle_noop_witness :
    GrShape.eqvB
      (GrShape.applyStyleCtor ⟨fun _ _ _ => none, fun _ p => p⟩
        GrShape.default StyleApply.pathEffectAndStrokeRec 1)
      GrShape.default = true :=
  grShape_applyStyle_noop _ _ _ _ (Or.inl (by decide))

theorem GrShape.setInheritedKeyFn_nonpath (s parent : GrShape)
    (ap : StyleApply) (scale : SkScalar) (h : s.fType ≠ ShapeType.kPath) :
    GrShape.setInheritedKeyFn s parent ap scale = s := by
  rw [GrShape.setInheritedKeyFn, if_pos h]

theorem GrShape.setInheritedKeyFn_keys (s parent : GrShape)
    (ap : StyleApply) (scale : SkScalar) (hs : s.fType = ShapeType.kPath)
    (hpc : 0 ≤ parent.unstyledKeySize)
    (hsty : 0 ≤ GrStyle.KeySize parent.fStyle ap parent.knownToBeClosed) :
    GrShape.setInheritedKeyFn s parent ap scale =
      { s with fInheritedKey :=
          (if parent.fInheritedKey = [] then parent.unstyledKeyWords
           else parent.fInheritedKey) ++
          GrStyle.WriteKey parent.fStyle ap scale parent.knownToBeClosed } := by
  rw [GrShape.setInheritedKeyFn, if_neg (by simp [hs]),
      if_neg (by rintro ⟨-, hlt⟩; omega), if_neg (by omega)]

theorem GrShape.unstyledKeySize_nonneg_of_nonpath (s : GrShape)
    (h : s.fType ≠ ShapeType.kPath) : 0 ≤ s.unstyledKeySize := by
  obtain ⟨t, rrc, p, sty2, key⟩ := s
  cases t with
  | kEmpty =>
    rw [GrShape.unstyledKeySize]
    split
    · exact Int.natCast_nonneg _
    · exact Int.one_nonneg
  | kRRect =>
    rw [GrShape.unstyledKeySize]
    split
    · exact Int.natCast_nonneg _
    · exact Int.natCast_nonneg _
  | kPath => exact absurd rfl h

theorem GrShape.unstyledKeySize_nonneg_of_key (s : GrShape)
    (h : s.fInheritedKey ≠ []) : 0 ≤ s.unstyledKeySize := by
  rw [GrShape.unstyledKeySize, if_pos h]
  exact Int.natCast_nonneg _

theorem GrStyle.KeySize_nonneg_dash (sty : GrStyle) (ph : SkScalar)
    (iv : List SkScalar) (ap : StyleApply) (flags : Bool)
    (h : sty.pathEffect = some (SkPathEffect.dash ph iv)) :
    0 ≤ GrStyle.KeySize sty ap flags := by
  unfold GrStyle.KeySize
  simp only [h]
  rw [if_neg (by omega)]
  cases ap with
  | pathEffectOnly =>
    simp only []
    omega
  | pathEffectAndStrokeRec =>
    simp only []
    split <;> omega

theorem GrStyle.KeySize_nonneg_strokeOnly (sr : SkStrokeRec)
    (ap : StyleApply) (flags : Bool) :
    0 ≤ GrStyle.KeySize ⟨sr, none⟩ ap flags := by
  unfold GrStyle.KeySize
  simp only
  rw [if_neg (by omega)]
  cases ap with
  | pathEffectOnly =>
    simp only []
    omega
  | pathEffectAndStrokeRec =>
    simp only []
    split <;> omega

theorem SkStrokeRec.cap_setResScale (sr : SkStrokeRec) (v : SkScalar) :
    (sr.setResScale v).cap = sr.cap := rfl

theorem SkStrokeRec.join_setResScale (sr : SkStrokeRec) (v : SkScalar) :
    (sr.setResScale v).join = sr.join := rfl

theorem SkStrokeRec.style_setResScale (sr : SkStrokeRec) (v : SkScalar) :
    (sr.setResScale v).style = sr.style := rfl

theorem SkStrokeRec.miter_setResScale (sr : SkStrokeRec) (v : SkScalar) :
    (sr.setResScale v).miter = sr.miter := rfl

theorem SkStrokeRec.width_setResScale (sr : SkStrokeRec) (v : SkScalar) :
    (sr.setResScale v).width = sr.width := rfl

theorem GrStyle.writeKey_split (sty : GrStyle) (ph : SkScalar)
    (iv : List SkScalar) (sc : SkScalar)
    (h : sty.pathEffect = some (SkPathEffect.dash ph iv)) :
    GrStyle.WriteKey sty StyleApply.pathEffectOnly sc true ++
      GrStyle.WriteKey ⟨sty.strokeRec.setResScale sc, none⟩
        StyleApply.pathEffectAndStrokeRec sc false =
    GrStyle.WriteKey sty StyleApply.pathEffectAndStrokeRec sc true := by
  by_cases hn : sty.strokeRec.needToApply = true
  · simp [GrStyle.WriteKey, h, SkStrokeRec.needToApply_setResScale,
      SkStrokeRec.cap_setResScale, SkStrokeRec.join_setResScale,
      SkStrokeRec.style_setResScale, SkStrokeRec.miter_setResScale,
      SkStrokeRec.width_setResScale, hn]
  · simp [GrStyle.WriteKey, h, SkStrokeRec.needToApply_setResScale,
      SkStrokeRec.cap_setResScale, SkStrokeRec.join_setResScale,
      SkStrokeRec.style_setResScale, SkStrokeRec.miter_setResScale,
      SkStrokeRec.width_setResScale, hn]

theorem GrShape.reduce_eq_of_path (s : GrShape) (rr2 : SkRRect)
    (h : GrShape.AttemptToReduceFromPathImpl s.thePath s.fRRect
        s.fStyle.pathEffect s.fStyle.strokeRec = (ShapeType.kPath, rr2)) :
    GrShape.attemptToReduceFromPathFn s =
      { s with fType := ShapeType.kPath } := by
  rw [GrShape.attemptToReduceFromPathFn]
  simp [h]

theorem GrShape.reduce_eq_of_nonpath (s : GrShape) (t : ShapeType)
    (rr2 : SkRRect)
    (h : GrShape.AttemptToReduceFromPathImpl s.thePath s.fRRect
        s.fStyle.pathEffect s.fStyle.strokeRec = (t, rr2))
    (hne : t ≠ ShapeType.kPath) :
    GrShape.attemptToReduceFromPathFn s =
      { s with fType := t, fRRect := rr2, fPath := none,
               fInheritedKey := [] } := by
  rw [GrShape.attemptToReduceFromPathFn]
  simp only [h]
  rw [if_neg hne]

theorem GrShape.applyStyleCtor_strokeOnly (env : StyleEnv) (A : GrShape)
    (sr : SkStrokeRec) (sc : SkScalar)
    (hA : A.fStyle = ⟨sr, none⟩) (hn : sr.needToApply = true) :
    GrShape.applyStyleCtor env A StyleApply.pathEffectAndStrokeRec sc =
      GrShape.setInheritedKeyFn
        (GrShape.attemptToReduceFromPathFn
          ⟨ShapeType.kPath, SkRRect.zero,
           some (env.strokeApply (sr.setResScale sc) A.asPathNew),
           GrStyle.default, []⟩)
        A StyleApply.pathEffectAndStrokeRec sc := by
  rw [GrShape.applyStyleCtor, if_neg ?hc]
  case hc =>
    rintro (h1 | ⟨h1, -⟩)
    · rw [hA, GrStyle.applies_of_needToApply sr none hn] at h1
      simp at h1
    · simp at h1
  simp [hA, GrStyle.applyToPathModel, SkStrokeRec.needToApply_setResScale,
    hn, GrStyle.fromInitStyle]

theorem SkRRect.writeToMemory_append_ne_nil (rrx : SkRRect)
    (l : List KeyWord) : rrx.writeToMemory ++ l ≠ [] := by
  simp [SkRRect.writeToMemory]

theorem GrShape.unstyledKeyWords_of_key (s : GrShape)
    (h : s.fInheritedKey ≠ []) : s.unstyledKeyWords = s.fInheritedKey := by
  rw [GrShape.unstyledKeyWords, if_pos h]

theorem GrShape.impl_rrect_nonempty (p : SkPath) (cur : SkRRect)
    (pe : Option SkPathEffect) (sr : SkStrokeRec) (rr2 : SkRRect)
    (h : GrShape.AttemptToReduceFromPathImpl p cur pe sr =
      (ShapeType.kRRect, rr2))
    (hw : p.wfB = true) : rr2.isEmpty = false := by
  rw [SkPath.wfB] at hw
  cases hg : p.geom with
  | empty => simp [GrShape.AttemptToReduceFromPathImpl, hg] at h
  | rrect rr3 =>
    simp [GrShape.AttemptToReduceFromPathImpl, hg] at h
    simp [hg] at hw
    rw [← h]
    simpa using hw
  | oval rc =>
    simp [GrShape.AttemptToReduceFromPathImpl, hg] at h
    simp [hg] at hw
    rw [← h]
    simpa [SkRRect.isEmpty, SkRRect.mkOval] using hw
  | rect rc closed =>
    simp only [GrShape.AttemptToReduceFromPathImpl, hg] at h
    simp [hg] at hw
    split at h
    · simp at h
      rw [← h]
      simpa [SkRRect.isEmpty, SkRRect.mkRect] using hw
    · simp at h
  | general gid => simp [GrShape.AttemptToReduceFromPathImpl, hg] at h

theorem GrShape.impl_empty_geom (p : SkPath) (cur : SkRRect)
    (pe : Option SkPathEffect) (sr : SkStrokeRec) (rr2 : SkRRect)
    (h : GrShape.AttemptToReduceFromPathImpl p cur pe sr =
      (ShapeType.kEmpty, rr2)) : p.geom = PathGeom.empty := by
  cases hg : p.geom with
  | empty => rfl
  | rrect rr3 => simp [GrShape.AttemptToReduceFromPathImpl, hg] at h
  | oval rc => simp [GrShape.AttemptToReduceFromPathImpl, hg] at h
  | rect rc closed =>
    simp only [GrShape.AttemptToReduceFromPathImpl, hg] at h
    split at h <;> simp at h
  | general gid => simp [GrShape.AttemptToReduceFromPathImpl, hg] at h
theorem GrShape.unstyledKeyWords_wtmkey (t : ShapeType) (rrx : SkRRect)
    (pth : Option SkPath) (sty2 : GrStyle) (rra : SkRRect)
    (l : List KeyWord) :
    (⟨t, rrx, pth, sty2, rra.writeToMemory ++ l⟩ : GrShape).unstyledKeyWords
      = rra.writeToMemory ++ l := by
  rw [GrShape.unstyledKeyWords,
    if_pos (SkRRect.writeToMemory_append_ne_nil rra l)]

/-- C1: staged-application key equivalence — for a rounded rectangle with a
dashed stroke style, applying the style in two stages (path effect only, then
the remaining stroke) produces a shape whose unstyled key equals that of the
one-stage application of path effect and stroke together, whenever both
reduce to the same final geometry; the one-stage path achieves this by
canonicalizing the path-effect output into a key-reference shape that
replaces the literal parent in inherited-key computation. -/
theorem grShape_staged_key_equivalence
    (env : StyleEnv) (rr : SkRRect) (sty : GrStyle) (ph : SkScalar)
    (iv : List SkScalar) (sc : SkScalar)
    (hpe : sty.pathEffect = some (SkPathEffect.dash ph iv))
    (hnta : sty.strokeRec.needToApply = true)
    (hrr : rr.isEmpty = false)
    (hstroke : ∀ sr p, p.geom = PathGeom.empty →
      (env.strokeApply sr p).geom = PathGeom.empty)
    (hwf : ∀ fp, env.filterPath (SkPathEffect.dash ph iv)
        (SkPath.mkRRectPath rr) (sty.strokeRec.setResScale sc) = some fp →
        fp.wfB = true)
    (hgeo : GrShape.sameGeoB
        (GrShape.applyStyleCtor env
          (GrShape.applyStyleCtor env (GrShape.ofRRect rr sty)
            StyleApply.pathEffectOnly sc)
          StyleApply.pathEffectAndStrokeRec sc)
        (GrShape.applyStyleCtor env (GrShape.ofRRect rr sty)
          StyleApply.pathEffectAndStrokeRec sc) = true) :
    GrShape.unstyledKeyWords
      (GrShape.applyStyleCtor env
        (GrShape.applyStyleCtor env (GrShape.ofRRect rr sty)
          StyleApply.pathEffectOnly sc)
        StyleApply.pathEffectAndStrokeRec sc) =
    GrShape.unstyledKeyWords
      (GrShape.applyStyleCtor env (GrShape.ofRRect rr sty)
        StyleApply.pathEffectAndStrokeRec sc) := by
  have hR : GrShape.ofRRect rr sty =
      ⟨ShapeType.kRRect, rr, none, sty, []⟩ := by
    rw [GrShape.ofRRect, if_neg (by simp [hrr])]
  have happ : sty.applies = true := GrStyle.applies_of_pe sty _ hpe
  have hnotshort : ∀ ap2 : StyleApply,
      ¬((⟨ShapeType.kRRect, rr, none, sty, []⟩ : GrShape).fStyle.applies
          = false ∨
        (ap2 = StyleApply.pathEffectOnly ∧
          (⟨ShapeType.kRRect, rr, none, sty, []⟩ :
            GrShape).fStyle.pathEffect = none)) := by
    intro ap2
    rintro (hA | ⟨-, hB⟩)
    · simp [happ] at hA
    · simp [hpe] at hB
  have hnta1 : (sty.strokeRec.setResScale sc).needToApply = true := by
    rw [SkStrokeRec.needToApply_setResScale]
    exact hnta
  rw [hR] at hgeo ⊢
  cases hF : env.filterPath (SkPathEffect.dash ph iv) (SkPath.mkRRectPath rr)
      (sty.strokeRec.setResScale sc) with
  | none =>
    have hC : GrShape.applyStyleCtor env
        ⟨ShapeType.kRRect, rr, none, sty, []⟩
        StyleApply.pathEffectAndStrokeRec sc = GrShape.default := by
      rw [GrShape.applyStyleCtor, if_neg (hnotshort _)]
      simp [GrShape.asPathNew, hpe, hF]
    have hA1 : GrShape.applyStyleCtor env
        ⟨ShapeType.kRRect, rr, none, sty, []⟩
        StyleApply.pathEffectOnly sc = GrShape.default := by
      rw [GrShape.applyStyleCtor, if_neg (hnotshort _)]
      simp [GrShape.asPathNew, hpe, hF]
    have hB : GrShape.applyStyleCtor env GrShape.default
        StyleApply.pathEffectAndStrokeRec sc = GrShape.default := by
      rw [GrShape.applyStyleCtor, if_pos (Or.inl (by decide))]
      rfl
    rw [hA1, hB, hC]
  | some fp =>
    have hwf1 : fp.wfB = true := hwf fp hF
    have hA1 : GrShape.applyStyleCtor env
        ⟨ShapeType.kRRect, rr, none, sty, []⟩
        StyleApply.pathEffectOnly sc =
        GrShape.setInheritedKeyFn
          (GrShape.attemptToReduceFromPathFn
            ⟨ShapeType.kPath, SkRRect.zero, some fp,
             ⟨sty.strokeRec.setResScale sc, none⟩, []⟩)
          ⟨ShapeType.kRRect, rr, none, sty, []⟩
          StyleApply.pathEffectOnly sc := by
      rw [GrShape.applyStyleCtor, if_neg (hnotshort _)]
      simp [GrShape.asPathNew, hpe, hF]
    have hC1 : GrShape.applyStyleCtor env
        ⟨ShapeType.kRRect, rr, none, sty, []⟩
        StyleApply.pathEffectAndStrokeRec sc =
        GrShape.setInheritedKeyFn
          (GrShape.attemptToReduceFromPathFn
            ⟨ShapeType.kPath, SkRRect.zero,
             some (env.strokeApply (sty.strokeRec.setResScale sc) fp),
             GrStyle.default, []⟩)
          (match (GrShape.AttemptToReduceFromPathImpl fp SkRRect.zero none
              (sty.strokeRec.setResScale sc)).1 with
           | ShapeType.kEmpty => GrShape.default
           | ShapeType.kRRect =>
               GrShape.ofRRect
                 (GrShape.AttemptToReduceFromPathImpl fp SkRRect.zero none
                   (sty.strokeRec.setResScale sc)).2
                 ⟨sty.strokeRec.setResScale sc, none⟩
           | ShapeType.kPath => ⟨ShapeType.kRRect, rr, none, sty, []⟩)
          StyleApply.pathEffectAndStrokeRec sc := by
      rw [GrShape.applyStyleCtor, if_neg (hnotshort _)]
      simp [GrShape.asPathNew, hpe, hF, hnta1]
    rcases hImp : GrShape.AttemptToReduceFromPathImpl fp SkRRect.zero none
        (sty.strokeRec.setResScale sc) with ⟨t, rr2⟩
    rw [hImp] at hC1
    cases t with
    | kPath =>
      simp only [] at hC1
      have hred1 : GrShape.attemptToReduceFromPathFn
          ⟨ShapeType.kPath, SkRRect.zero, some fp,
           ⟨sty.strokeRec.setResScale sc, none⟩, []⟩ =
          ⟨ShapeType.kPath, SkRRect.zero, some fp,
           ⟨sty.strokeRec.setResScale sc, none⟩, []⟩ :=
        GrShape.reduce_eq_of_path _ rr2 hImp
      have hA2 : GrShape.setInheritedKeyFn
          ⟨ShapeType.kPath, SkRRect.zero, some fp,
           ⟨sty.strokeRec.setResScale sc, none⟩, []⟩
          ⟨ShapeType.kRRect, rr, none, sty, []⟩
          StyleApply.pathEffectOnly sc =
          ⟨ShapeType.kPath, SkRRect.zero, some fp,
           ⟨sty.strokeRec.setResScale sc, none⟩,
           rr.writeToMemory ++
             GrStyle.WriteKey sty StyleApply.pathEffectOnly sc true⟩ := by
        rw [GrShape.setInheritedKeyFn_keys _ _ _ _ rfl
          (GrShape.unstyledKeySize_nonneg_of_nonpath _ (by simp))
          (GrStyle.KeySize_nonneg_dash _ ph iv _ _ hpe)]
        simp [GrShape.unstyledKeyWords, GrShape.knownToBeClosed]
      have hA3 : GrShape.applyStyleCtor env
          ⟨ShapeType.kRRect, rr, none, sty, []⟩
          StyleApply.pathEffectOnly sc =
          ⟨ShapeType.kPath, SkRRect.zero, some fp,
           ⟨sty.strokeRec.setResScale sc, none⟩,
           rr.writeToMemory ++
             GrStyle.WriteKey sty StyleApply.pathEffectOnly sc true⟩ := by
        rw [hA1, hred1, hA2]
      have hstage2 := GrShape.applyStyleCtor_strokeOnly env
        ⟨ShapeType.kPath, SkRRect.zero, some fp,
         ⟨sty.strokeRec.setResScale sc, none⟩,
         rr.writeToMemory ++
           GrStyle.WriteKey sty StyleApply.pathEffectOnly sc true⟩
        (sty.strokeRec.setResScale sc) sc rfl hnta1
      rw [show (sty.strokeRec.setResScale sc).setResScale sc =
          sty.strokeRec.setResScale sc from rfl] at hstage2
      rw [show (⟨ShapeType.kPath, SkRRect.zero, some fp,
          ⟨sty.strokeRec.setResScale sc, none⟩,
          rr.writeToMemory ++
            GrStyle.WriteKey sty StyleApply.pathEffectOnly sc true⟩ :
          GrShape).asPathNew = fp from rfl] at hstage2
      rw [hA3, hstage2, hC1]
      rcases hImpB : GrShape.AttemptToReduceFromPathImpl
          (env.strokeApply (sty.strokeRec.setResScale sc) fp) SkRRect.zero
          none SkStrokeRec.fillRec with ⟨tB, rrB⟩
      cases tB with
      | kPath =>
        have hredB : GrShape.attemptToReduceFromPathFn
            ⟨ShapeType.kPath, SkRRect.zero,
             some (env.strokeApply (sty.strokeRec.setResScale sc) fp),
             GrStyle.default, []⟩ =
            ⟨ShapeType.kPath, SkRRect.zero,
             some (env.strokeApply (sty.strokeRec.setResScale sc) fp),
             GrStyle.default, []⟩ :=
          GrShape.reduce_eq_of_path _ rrB hImpB
        rw [hredB]
        have hB2 : GrShape.setInheritedKeyFn
            ⟨ShapeType.kPath, SkRRect.zero,
             some (env.strokeApply (sty.strokeRec.setResScale sc) fp),
             GrStyle.default, []⟩
            ⟨ShapeType.kPath, SkRRect.zero, some fp,
             ⟨sty.strokeRec.setResScale sc, none⟩,
             rr.writeToMemory ++
               GrStyle.WriteKey sty StyleApply.pathEffectOnly sc true⟩
            StyleApply.pathEffectAndStrokeRec sc =
            ⟨ShapeType.kPath, SkRRect.zero,
             some (env.strokeApply (sty.strokeRec.setResScale sc) fp),
             GrStyle.default,
             rr.writeToMemory ++
               (GrStyle.WriteKey sty StyleApply.pathEffectOnly sc true ++
                 GrStyle.WriteKey ⟨sty.strokeRec.setResScale sc, none⟩
                   StyleApply.pathEffectAndStrokeRec sc false)⟩ := by
          rw [GrShape.setInheritedKeyFn_keys _ _ _ _ rfl
            (GrShape.unstyledKeySize_nonneg_of_key _
              (SkRRect.writeToMemory_append_ne_nil rr _))
            (GrStyle.KeySize_nonneg_strokeOnly _ _ _)]
          simp [GrShape.knownToBeClosed, SkRRect.writeToMemory]
        have hC2 : GrShape.setInheritedKeyFn
            ⟨ShapeType.kPath, SkRRect.zero,
             some (env.strokeApply (sty.strokeRec.setResScale sc) fp),
             GrStyle.default, []⟩
            ⟨ShapeType.kRRect, rr, none, sty, []⟩
            StyleApply.pathEffectAndStrokeRec sc =
            ⟨ShapeType.kPath, SkRRect.zero,
             some (env.strokeApply (sty.strokeRec.setResScale sc) fp),
             GrStyle.default,
             rr.writeToMemory ++
               GrStyle.WriteKey sty StyleApply.pathEffectAndStrokeRec sc
                 true⟩ := by
          rw [GrShape.setInheritedKeyFn_keys _ _ _ _ rfl
            (GrShape.unstyledKeySize_nonneg_of_nonpath _ (by simp))
            (GrStyle.KeySize_nonneg_dash _ ph iv _ _ hpe)]
          simp [GrShape.unstyledKeyWords, GrShape.knownToBeClosed]
        rw [hB2, hC2]
        simp only [GrShape.unstyledKeyWords_wtmkey]
        rw [GrStyle.writeKey_split sty ph iv sc hpe]
      | kEmpty =>
        have hredB : GrShape.attemptToReduceFromPathFn
            ⟨ShapeType.kPath, SkRRect.zero,
             some (env.strokeApply (sty.strokeRec.setResScale sc) fp),
             GrStyle.default, []⟩ =
            ⟨ShapeType.kEmpty, rrB, none, GrStyle.default, []⟩ :=
          GrShape.reduce_eq_of_nonpath _ _ _ hImpB (by simp)
        have hsetB : ∀ par : GrShape, GrShape.setInheritedKeyFn
            ⟨ShapeType.kEmpty, rrB, none, GrStyle.default, []⟩ par
            StyleApply.pathEffectAndStrokeRec sc =
            ⟨ShapeType.kEmpty, rrB, none, GrStyle.default, []⟩ :=
          fun par => GrShape.setInheritedKeyFn_nonpath _ par _ _ (by simp)
        rw [hredB, hsetB, hsetB]
      | kRRect =>
        have hredB : GrShape.attemptToReduceFromPathFn
            ⟨ShapeType.kPath, SkRRect.zero,
             some (env.strokeApply (sty.strokeRec.setResScale sc) fp),
             GrStyle.default, []⟩ =
            ⟨ShapeType.kRRect, rrB, none, GrStyle.default, []⟩ :=
          GrShape.reduce_eq_of_nonpath _ _ _ hImpB (by simp)
        have hsetB : ∀ par : GrShape, GrShape.setInheritedKeyFn
            ⟨ShapeType.kRRect, rrB, none, GrStyle.default, []⟩ par
            StyleApply.pathEffectAndStrokeRec sc =
            ⟨ShapeType.kRRect, rrB, none, GrStyle.default, []⟩ :=
          fun par => GrShape.setInheritedKeyFn_nonpath _ par _ _ (by simp)
        rw [hredB, hsetB, hsetB]
    | kRRect =>
      simp only [] at hC1
      have hne : rr2.isEmpty = false :=
        GrShape.impl_rrect_nonempty fp SkRRect.zero none _ rr2 hImp hwf1
      have hof : GrShape.ofRRect rr2 ⟨sty.strokeRec.setResScale sc, none⟩ =
          ⟨ShapeType.kRRect, rr2, none,
           ⟨sty.strokeRec.setResScale sc, none⟩, []⟩ := by
        rw [GrShape.ofRRect, if_neg (by simp [hne])]
      rw [hof] at hC1
      have hred1 : GrShape.attemptToReduceFromPathFn
          ⟨ShapeType.kPath, SkRRect.zero, some fp,
           ⟨sty.strokeRec.setResScale sc, none⟩, []⟩ =
          ⟨ShapeType.kRRect, rr2, none,
           ⟨sty.strokeRec.setResScale sc, none⟩, []⟩ :=
        GrShape.reduce_eq_of_nonpath _ _ _ hImp (by simp)
      have hA3 : GrShape.applyStyleCtor env
          ⟨ShapeType.kRRect, rr, none, sty, []⟩
          StyleApply.pathEffectOnly sc =
          ⟨ShapeType.kRRect, rr2, none,
           ⟨sty.strokeRec.setResScale sc, none⟩, []⟩ := by
        rw [hA1, hred1]
        exact GrShape.setInheritedKeyFn_nonpath _ _ _ _ (by simp)
      have hstage2 := GrShape.applyStyleCtor_strokeOnly env
        ⟨ShapeType.kRRect, rr2, none,
         ⟨sty.strokeRec.setResScale sc, none⟩, []⟩
        (sty.strokeRec.setResScale sc) sc rfl hnta1
      rw [show (sty.strokeRec.setResScale sc).setResScale sc =
          sty.strokeRec.setResScale sc from rfl] at hstage2
      rw [show (⟨ShapeType.kRRect, rr2, none,
          ⟨sty.strokeRec.setResScale sc, none⟩, []⟩ :
          GrShape).asPathNew = SkPath.mkRRectPath rr2 from rfl] at hstage2
      rw [hA3, hstage2, hC1] at hgeo ⊢
      have hkeys : ∀ q : SkPath, GrShape.setInheritedKeyFn
          ⟨ShapeType.kPath, SkRRect.zero, some q, GrStyle.default, []⟩
          ⟨ShapeType.kRRect, rr2, none,
           ⟨sty.strokeRec.setResScale sc, none⟩, []⟩
          StyleApply.pathEffectAndStrokeRec sc =
          ⟨ShapeType.kPath, SkRRect.zero, some q, GrStyle.default,
           rr2.writeToMemory ++
             GrStyle.WriteKey ⟨sty.strokeRec.setResScale sc, none⟩
               StyleApply.pathEffectAndStrokeRec sc true⟩ := by
        intro q
        rw [GrShape.setInheritedKeyFn_keys _ _ _ _ rfl
          (GrShape.unstyledKeySize_nonneg_of_nonpath _ (by simp))
          (GrStyle.KeySize_nonneg_strokeOnly _ _ _)]
        simp [GrShape.unstyledKeyWords, GrShape.knownToBeClosed]
      rcases hImpB : GrShape.AttemptToReduceFromPathImpl
          (env.strokeApply (sty.strokeRec.setResScale sc)
            (SkPath.mkRRectPath rr2)) SkRRect.zero none SkStrokeRec.fillRec
        with ⟨tB, rrB⟩
      rcases hImpC : GrShape.AttemptToReduceFromPathImpl
          (env.strokeApply (sty.strokeRec.setResScale sc) fp) SkRRect.zero
          none SkStrokeRec.fillRec with ⟨tC, rrC⟩
      cases tB with
      | kPath =>
        have hredB : GrShape.attemptToReduceFromPathFn
            ⟨ShapeType.kPath, SkRRect.zero,
             some (env.strokeApply (sty.strokeRec.setResScale sc)
               (SkPath.mkRRectPath rr2)),
             GrStyle.default, []⟩ =
            ⟨ShapeType.kPath, SkRRect.zero,
             some (env.strokeApply (sty.strokeRec.setResScale sc)
               (SkPath.mkRRectPath rr2)),
             GrStyle.default, []⟩ :=
          GrShape.reduce_eq_of_path _ rrB hImpB
        rw [hredB, hkeys] at hgeo ⊢
        cases tC with
        | kPath =>
          have hredC : GrShape.attemptToReduceFromPathFn
              ⟨ShapeType.kPath, SkRRect.zero,
               some (env.strokeApply (sty.strokeRec.setResScale sc) fp),
               GrStyle.default, []⟩ =
              ⟨ShapeType.kPath, SkRRect.zero,
               some (env.strokeApply (sty.strokeRec.setResScale sc) fp),
               GrStyle.default, []⟩ :=
            GrShape.reduce_eq_of_path _ rrC hImpC
          rw [hredC, hkeys]
          simp only [GrShape.unstyledKeyWords_wtmkey]
        | kEmpty =>
          have hredC : GrShape.attemptToReduceFromPathFn
              ⟨ShapeType.kPath, SkRRect.zero,
               some (env.strokeApply (sty.strokeRec.setResScale sc) fp),
               GrStyle.default, []⟩ =
              ⟨ShapeType.kEmpty, rrC, none, GrStyle.default, []⟩ :=
            GrShape.reduce_eq_of_nonpath _ _ _ hImpC (by simp)
          have hsetC : ∀ par : GrShape, GrShape.setInheritedKeyFn
              ⟨ShapeType.kEmpty, rrC, none, GrStyle.default, []⟩ par
              StyleApply.pathEffectAndStrokeRec sc =
              ⟨ShapeType.kEmpty, rrC, none, GrStyle.default, []⟩ :=
            fun par => GrShape.setInheritedKeyFn_nonpath _ par _ _ (by simp)
          rw [hredC, hsetC] at hgeo
          simp [GrShape.sameGeoB] at hgeo
        | kRRect =>
          have hredC : GrShape.attemptToReduceFromPathFn
              ⟨ShapeType.kPath, SkRRect.zero,
               some (env.strokeApply (sty.strokeRec.setResScale sc) fp),
               GrStyle.default, []⟩ =
              ⟨ShapeType.kRRect, rrC, none, GrStyle.default, []⟩ :=
            GrShape.reduce_eq_of_nonpath _ _ _ hImpC (by simp)
          have hsetC : ∀ par : GrShape, GrShape.setInheritedKeyFn
              ⟨ShapeType.kRRect, rrC, none, GrStyle.default, []⟩ par
              StyleApply.pathEffectAndStrokeRec sc =
              ⟨ShapeType.kRRect, rrC, none, GrStyle.default, []⟩ :=
            fun par => GrShape.setInheritedKeyFn_nonpath _ par _ _ (by simp)
          rw [hredC, hsetC] at hgeo
          simp [GrShape.sameGeoB] at hgeo
      | kEmpty =>
        have hredB : GrShape.attemptToReduceFromPathFn
            ⟨ShapeType.kPath, SkRRect.zero,
             some (env.strokeApply (sty.strokeRec.setResScale sc)
               (SkPath.mkRRectPath rr2)),
             GrStyle.default, []⟩ =
            ⟨ShapeType.kEmpty, rrB, none, GrStyle.default, []⟩ :=
          GrShape.reduce_eq_of_nonpath _ _ _ hImpB (by simp)
        have hsetB : ∀ par : GrShape, GrShape.setInheritedKeyFn
            ⟨ShapeType.kEmpty, rrB, none, GrStyle.default, []⟩ par
            StyleApply.pathEffectAndStrokeRec sc =
            ⟨ShapeType.kEmpty, rrB, none, GrStyle.default, []⟩ :=
          fun par => GrShape.setInheritedKeyFn_nonpath _ par _ _ (by simp)
        rw [hredB, hsetB] at hgeo ⊢
        cases tC with
        | kPath =>
          have hredC : GrShape.attemptToReduceFromPathFn
              ⟨ShapeType.kPath, SkRRect.zero,
               some (env.strokeApply (sty.strokeRec.setResScale sc) fp),
               GrStyle.default, []⟩ =
              ⟨ShapeType.kPath, SkRRect.zero,
               some (env.strokeApply (sty.strokeRec.setResScale sc) fp),
               GrStyle.default, []⟩ :=
            GrShape.reduce_eq_of_path _ rrC hImpC
          rw [hredC, hkeys] at hgeo
          simp [GrShape.sameGeoB] at hgeo
        | kEmpty =>
          have hredC : GrShape.attemptToReduceFromPathFn
              ⟨ShapeType.kPath, SkRRect.zero,
               some (env.strokeApply (sty.strokeRec.setResScale sc) fp),
               GrStyle.default, []⟩ =
              ⟨ShapeType.kEmpty, rrC, none, GrStyle.default, []⟩ :=
            GrShape.reduce_eq_of_nonpath _ _ _ hImpC (by simp)
          have hsetC : ∀ par : GrShape, GrShape.setInheritedKeyFn
              ⟨ShapeType.kEmpty, rrC, none, GrStyle.default, []⟩ par
              StyleApply.pathEffectAndStrokeRec sc =
              ⟨ShapeType.kEmpty, rrC, none, GrStyle.default, []⟩ :=
            fun par => GrShape.setInheritedKeyFn_nonpath _ par _ _ (by simp)
          rw [hredC, hsetC]
          simp [GrShape.unstyledKeyWords]
        | kRRect =>
          have hredC : GrShape.attemptToReduceFromPathFn
              ⟨ShapeType.kPath, SkRRect.zero,
               some (env.strokeApply (sty.strokeRec.setResScale sc) fp),
               GrStyle.default, []⟩ =
              ⟨ShapeType.kRRect, rrC, none, GrStyle.default, []⟩ :=
            GrShape.reduce_eq_of_nonpath _ _ _ hImpC (by simp)
          have hsetC : ∀ par : GrShape, GrShape.setInheritedKeyFn
              ⟨ShapeType.kRRect, rrC, none, GrStyle.default, []⟩ par
              StyleApply.pathEffectAndStrokeRec sc =
              ⟨ShapeType.kRRect, rrC, none, GrStyle.default, []⟩ :=
            fun par => GrShape.setInheritedKeyFn_nonpath _ par _ _ (by simp)
          rw [hredC, hsetC] at hgeo
          simp [GrShape.sameGeoB] at hgeo
      | kRRect =>
        have hredB : GrShape.attemptToReduceFromPathFn
            ⟨ShapeType.kPath, SkRRect.zero,
             some (env.strokeApply (sty.strokeRec.setResScale sc)
               (SkPath.mkRRectPath rr2)),
             GrStyle.default, []⟩ =
            ⟨ShapeType.kRRect, rrB, none, GrStyle.default, []⟩ :=
          GrShape.reduce_eq_of_nonpath _ _ _ hImpB (by simp)
        have hsetB : ∀ par : GrShape, GrShape.setInheritedKeyFn
            ⟨ShapeType.kRRect, rrB, none, GrStyle.default, []⟩ par
            StyleApply.pathEffectAndStrokeRec sc =
            ⟨ShapeType.kRRect, rrB, none, GrStyle.default, []⟩ :=
          fun par => GrShape.setInheritedKeyFn_nonpath _ par _ _ (by simp)
        rw [hredB, hsetB] at hgeo ⊢
        cases tC with
        | kPath =>
          have hredC : GrShape.attemptToReduceFromPathFn
              ⟨ShapeType.kPath, SkRRect.zero,
               some (env.strokeApply (sty.strokeRec.setResScale sc) fp),
               GrStyle.default, []⟩ =
              ⟨ShapeType.kPath, SkRRect.zero,
               some (env.strokeApply (sty.strokeRec.setResScale sc) fp),
               GrStyle.default, []⟩ :=
            GrShape.reduce_eq_of_path _ rrC hImpC
          rw [hredC, hkeys] at hgeo
          simp [GrShape.sameGeoB] at hgeo
        | kEmpty =>
          have hredC : GrShape.attemptToReduceFromPathFn
              ⟨ShapeType.kPath, SkRRect.zero,
               some (env.strokeApply (sty.strokeRec.setResScale sc) fp),
               GrStyle.default, []⟩ =
              ⟨ShapeType.kEmpty, rrC, none, GrStyle.default, []⟩ :=
            GrShape.reduce_eq_of_nonpath _ _ _ hImpC (by simp)
          have hsetC : ∀ par : GrShape, GrShape.setInheritedKeyFn
              ⟨ShapeType.kEmpty, rrC, none, GrStyle.default, []⟩ par
              StyleApply.pathEffectAndStrokeRec sc =
              ⟨ShapeType.kEmpty, rrC, none, GrStyle.default, []⟩ :=
            fun par => GrShape.setInheritedKeyFn_nonpath _ par _ _ (by simp)
          rw [hredC, hsetC] at hgeo
          simp [GrShape.sameGeoB] at hgeo
        | kRRect =>
          have hredC : GrShape.attemptToReduceFromPathFn
              ⟨ShapeType.kPath, SkRRect.zero,
               some (env.strokeApply (sty.strokeRec.setResScale sc) fp),
               GrStyle.default, []⟩ =
              ⟨ShapeType.kRRect, rrC, none, GrStyle.default, []⟩ :=
            GrShape.reduce_eq_of_nonpath _ _ _ hImpC (by simp)
          have hsetC : ∀ par : GrShape, GrShape.setInheritedKeyFn
              ⟨ShapeType.kRRect, rrC, none, GrStyle.default, []⟩ par
              StyleApply.pathEffectAndStrokeRec sc =
              ⟨ShapeType.kRRect, rrC, none, GrStyle.default, []⟩ :=
            fun par => GrShape.setInheritedKeyFn_nonpath _ par _ _ (by simp)
          rw [hredC, hsetC] at hgeo ⊢
          simp [GrShape.sameGeoB] at hgeo
          simp [GrShape.unstyledKeyWords, hgeo]
    | kEmpty =>
      simp only [] at hC1
      have hGe : fp.geom = PathGeom.empty :=
        GrShape.impl_empty_geom fp SkRRect.zero none _ rr2 hImp
      have hred1 : GrShape.attemptToReduceFromPathFn
          ⟨ShapeType.kPath, SkRRect.zero, some fp,
           ⟨sty.strokeRec.setResScale sc, none⟩, []⟩ =
          ⟨ShapeType.kEmpty, rr2, none,
           ⟨sty.strokeRec.setResScale sc, none⟩, []⟩ :=
        GrShape.reduce_eq_of_nonpath _ _ _ hImp (by simp)
      have hA3 : GrShape.applyStyleCtor env
          ⟨ShapeType.kRRect, rr, none, sty, []⟩
          StyleApply.pathEffectOnly sc =
          ⟨ShapeType.kEmpty, rr2, none,
           ⟨sty.strokeRec.setResScale sc, none⟩, []⟩ := by
        rw [hA1, hred1]
        exact GrShape.setInheritedKeyFn_nonpath _ _ _ _ (by simp)
      have hstage2 := GrShape.applyStyleCtor_strokeOnly env
        ⟨ShapeType.kEmpty, rr2, none,
         ⟨sty.strokeRec.setResScale sc, none⟩, []⟩
        (sty.strokeRec.setResScale sc) sc rfl hnta1
      rw [show (sty.strokeRec.setResScale sc).setResScale sc =
          sty.strokeRec.setResScale sc from rfl] at hstage2
      rw [show (⟨ShapeType.kEmpty, rr2, none,
          ⟨sty.strokeRec.setResScale sc, none⟩, []⟩ :
          GrShape).asPathNew = SkPath.emptyPath from rfl] at hstage2
      have hB0 : (env.strokeApply (sty.strokeRec.setResScale sc)
          SkPath.emptyPath).geom = PathGeom.empty := hstroke _ _ rfl
      have hC0 : (env.strokeApply (sty.strokeRec.setResScale sc) fp).geom
          = PathGeom.empty := hstroke _ _ hGe
      have hImpB : GrShape.AttemptToReduceFromPathImpl
          (env.strokeApply (sty.strokeRec.setResScale sc) SkPath.emptyPath)
          SkRRect.zero none SkStrokeRec.fillRec =
          (ShapeType.kEmpty, SkRRect.zero) := by
        simp [GrShape.AttemptToReduceFromPathImpl, hB0]
      have hImpC : GrShape.AttemptToReduceFromPathImpl
          (env.strokeApply (sty.strokeRec.setResScale sc) fp)
          SkRRect.zero none SkStrokeRec.fillRec =
          (ShapeType.kEmpty, SkRRect.zero) := by
        simp [GrShape.AttemptToReduceFromPathImpl, hC0]
      have hredB : GrShape.attemptToReduceFromPathFn
          ⟨ShapeType.kPath, SkRRect.zero,
           some (env.strokeApply (sty.strokeRec.setResScale sc)
             SkPath.emptyPath),
           GrStyle.default, []⟩ =
          ⟨ShapeType.kEmpty, SkRRect.zero, none, GrStyle.default, []⟩ :=
        GrShape.reduce_eq_of_nonpath _ _ _ hImpB (by simp)
      have hredC : GrShape.attemptToReduceFromPathFn
          ⟨ShapeType.kPath, SkRRect.zero,
           some (env.strokeApply (sty.strokeRec.setResScale sc) fp),
           GrStyle.default, []⟩ =
          ⟨ShapeType.kEmpty, SkRRect.zero, none, GrStyle.default, []⟩ :=
        GrShape.reduce_eq_of_nonpath _ _ _ hImpC (by simp)
      have hsetE : ∀ par : GrShape, GrShape.setInheritedKeyFn
          ⟨ShapeType.kEmpty, SkRRect.zero, none, GrStyle.default, []⟩ par
          StyleApply.pathEffectAndStrokeRec sc =
          ⟨ShapeType.kEmpty, SkRRect.zero, none, GrStyle.default, []⟩ :=
        fun par => GrShape.setInheritedKeyFn_nonpath _ par _ _ (by simp)
      rw [hA3, hstage2, hC1, hredB, hredC, hsetE, hsetE]

/-- A concrete environment for exercising staged style application: the dash
filter returns a fixed general path and stroking is the identity on
geometry. -/
def c1Env : StyleEnv :=
  ⟨fun _ _ _ => some ⟨PathGeom.general 5, 7, false⟩, fun _ p => p⟩

/-- A concrete unit-square rounded rect. -/
def c1RR : SkRRect := ⟨⟨0, 0, 1, 1⟩, 0, 0, 0, 0, 0, 0, 0, 0⟩

/-- A concrete stroke style carrying a dash path effect. -/
def c1Style : GrStyle :=
  ⟨⟨SRStyle.stroke, 1, 4, SkCap.butt, SkJoin.miter, 1⟩,
   some (SkPathEffect.dash 0 [1, 1])⟩

theorem grShape_staged_key_equivalence_witness :
    GrShape.unstyledKeyWords
      (GrShape.applyStyleCtor c1Env
        (GrShape.applyStyleCtor c1Env (GrShape.ofRRect c1RR c1Style)
          StyleApply.pathEffectOnly 2)
        StyleApply.pathEffectAndStrokeRec 2) =
    GrShape.unstyledKeyWords
      (GrShape.applyStyleCtor c1Env (GrShape.ofRRect c1RR c1Style)
        StyleApply.pathEffectAndStrokeRec 2) :=
  grShape_staged_key_equivalence c1Env c1RR c1Style 0 [1, 1] 2 rfl rfl
    (by decide) (fun _ _ h => h)
    (fun fp hfp => by
      injection hfp with h
      subst h
      decide)
    (by decide)
